import Mathlib

/-!
Shallow embedding of the sticky-refinery coordination core
(repository whisper-darkly/sticky-converter) and proofs about it.

The embedding follows the Go sources:
  internal/store/store.go    - SQLite-backed task ledger (target_files table)
  internal/scanner/scanner.go - glob scan with age filters and priority sort
  internal/pool (in api.go bundle) - bounded worker pool, dispatch, task ids
  internal/daemon/daemon.go  - tick filter and completion callback
  converter/handler.go       - the overseer-based converter action variant

Modelling conventions:
  - SQL rows are Lean structures; the target_files table is a list of rows
    (path is the primary key).  `UPDATE ... WHERE path = ?` is a map over the
    list touching matching rows; an update matching zero rows is a successful
    statement, so the store operations return `Except.ok` (driver I/O failures
    are environmental and out of scope).
  - Wall-clock instants are abstract naturals (store timestamps) and integers
    (file modification times and ages, mirroring Go's int64 time.Duration).
  - The filesystem seen by one `doublestar.GlobWalk` call is an oracle from
    the glob pattern to a walk outcome; `GlobWalk` with default options
    silently skips unreadable directories (I/O errors surface only with the
    WithFailOnIOErrors option, which scanner.go does not use), while a
    malformed pattern yields an error.
-/

namespace StickyRefinery

/-! ### Store (internal/store/store.go) -/

/-- A row of the `target_files` table (store.go, `TargetFile`). -/
structure TargetFile where
  path : String
  pipeline_name : String
  status : String
  error_count : Nat
  error_message : Option String
  queued_at : Option Nat
  started_at : Option Nat
  completed_at : Option Nat
  last_attempted_at : Option Nat
deriving Repr, DecidableEq

/-- The `target_files` table: a list of rows, `path` being the primary key. -/
abbrev StoreState := List TargetFile

/-- `GetByPath` (store.go:117): `SELECT ... WHERE path = ?`; `none` models
`sql.ErrNoRows`. -/
def getByPath (s : StoreState) (p : String) : Option TargetFile :=
  s.find? (fun r => r.path == p)

/-- `UPDATE target_files SET ... WHERE path = ?`: every row whose path matches
is rewritten by `f`; other rows are untouched. -/
def updateWhere (s : StoreState) (p : String) (f : TargetFile → TargetFile) : StoreState :=
  s.map (fun r => if r.path == p then f r else r)

/-- `UpsertQueued` (store.go:61-70).  `INSERT ... VALUES (path, pipeline,
'queued', now) ON CONFLICT(path) DO UPDATE SET status = CASE WHEN
excluded.status = 'queued' THEN 'queued' ELSE status END, queued_at = CASE WHEN
status = 'errored' OR status = 'paused' THEN now ELSE queued_at END`.
`excluded.status` is the literal `'queued'` from the VALUES clause; unqualified
columns in the SET expressions refer to the pre-update row. -/
def upsertQueued (s : StoreState) (path pipeline : String) (now : Nat) :
    Except String StoreState :=
  let excludedStatus := "queued"
  if s.any (fun r => r.path == path) then
    .ok (updateWhere s path (fun r =>
      { r with
        status := if excludedStatus == "queued" then "queued" else r.status
        queued_at := if r.status == "errored" || r.status == "paused" then some now
          else r.queued_at }))
  else
    .ok (s ++ [{ path := path, pipeline_name := pipeline, status := "queued",
                 error_count := 0, error_message := none, queued_at := some now,
                 started_at := none, completed_at := none,
                 last_attempted_at := none }])

/-- `MarkInFlight` (store.go:73-80). -/
def markInFlight (s : StoreState) (path : String) (now : Nat) :
    Except String StoreState :=
  .ok (updateWhere s path (fun r =>
    { r with status := "in_flight", started_at := some now,
             last_attempted_at := some now }))

/-- `MarkCompleted` (store.go:83-90). -/
def markCompleted (s : StoreState) (path : String) (now : Nat) :
    Except String StoreState :=
  .ok (updateWhere s path (fun r =>
    { r with status := "completed", completed_at := some now }))

/-- `MarkErrored` (store.go:93-100). -/
def markErrored (s : StoreState) (path message : String) (now : Nat) :
    Except String StoreState :=
  .ok (updateWhere s path (fun r =>
    { r with status := "errored", error_count := r.error_count + 1,
             error_message := some message, last_attempted_at := some now }))

/-- `MarkPaused` (store.go:103-106): `UPDATE target_files SET status = 'paused'
WHERE path = ?`, unconditional. -/
def markPaused (s : StoreState) (path : String) : Except String StoreState :=
  .ok (updateWhere s path (fun r => { r with status := "paused" }))

/-- `MarkResumed` (store.go:109-114): set status `queued`, clear the error
message. -/
def markResumed (s : StoreState) (path : String) : Except String StoreState :=
  .ok (updateWhere s path (fun r =>
    { r with status := "queued", error_message := none }))

/-- `store.New` (store.go:37-42) runs only `CREATE TABLE IF NOT EXISTS`
statements, which leave the rows of an existing database untouched, and
`main` (cmd/sticky-refinery/main.go:22-90) performs no other store write
between `store.New` and `daemon.Start`; process startup therefore maps the
persisted table to itself. -/
def storeNew (s : StoreState) : StoreState := s

/-- The status recorded for `p` after a store call returning `res`. -/
def statusAfter (res : Except String StoreState) (p : String) : Option String :=
  match res with
  | .ok s => (getByPath s p).map (fun r => r.status)
  | .error _ => none

/-! ### Scanner (internal/scanner/scanner.go) -/

/-- The fields of `config.PipelineConfig` (internal/config/config.go:30-40)
that the scanner and pool read.  `minAge`/`maxAge` mirror the `*Duration`
pointers: `none` is a `nil` pointer (field absent from the YAML), `some d` an
explicitly present duration.  `Target`, `Command` and `Extra` are consumed
only by the template renderer, which is abstracted behind the pool's
environment oracle below. -/
structure PipelineConfig where
  name : String
  priority : Int
  paths : List String
  direction : String
  minAge : Option Int
  maxAge : Option Int
deriving Repr, DecidableEq

/-- One entry delivered by the glob walk.  `path` is the joined absolute path
(`filepath.Join(base, path)` in scanner.go:64); `modTime = none` models
`d.Info()` returning an error (the entry is then skipped, scanner.go:69-72). -/
structure FileEntry where
  path : String
  isDir : Bool
  modTime : Option Int
deriving Repr, DecidableEq

/-- `CandidateFile` (scanner.go:15-21). -/
structure CandidateFile where
  path : String
  pipelineName : String
  priority : Int
  modTime : Int
  direction : String
deriving Repr, DecidableEq

/-- The outcome of walking one glob pattern's root.  `ioError readable` is a
walk that hit an I/O error (unreadable directory or root) after having read
`readable`; `badPattern` is a malformed pattern. -/
inductive GlobOutcome where
  | ok (entries : List FileEntry)
  | ioError (readable : List FileEntry)
  | badPattern
deriving Repr, DecidableEq

/-- The filesystem as seen through glob patterns. -/
abbrev FS := String → GlobOutcome

/-- `doublestar.GlobWalk` (scanner.go:60) with default options: directory
read errors are silently skipped (doublestar only reports them under the
`WithFailOnIOErrors` option, which scanner.go does not pass), so an `ioError`
walk still returns its readable entries with a nil error; only a malformed
pattern produces a non-nil error (`doublestar.ErrBadPattern`). -/
def globWalk (fs : FS) (pattern : String) : Except String (List FileEntry) :=
  match fs pattern with
  | .ok es => .ok es
  | .ioError es => .ok es
  | .badPattern => .error "bad pattern"

/-- `p.MinAge != nil && age < p.MinAge.Duration` (scanner.go:75). -/
def belowMin : Option Int → Int → Bool
  | some m, age => age < m
  | none, _ => false

/-- `p.MaxAge != nil && age > p.MaxAge.Duration` (scanner.go:78). -/
def aboveMax : Option Int → Int → Bool
  | some m, age => age > m
  | none, _ => false

/-- The body of the `GlobWalk` callback (scanner.go:60-91) folded over the
entries of one pattern: skip directories, already-seen paths and entries
whose `Info()` failed; apply the age filters; record survivors in walk order
and in the `seen` set. -/
def scanEntries (p : PipelineConfig) (now : Int) :
    List FileEntry → List String → List CandidateFile × List String
  | [], seen => ([], seen)
  | e :: rest, seen =>
    if e.isDir then scanEntries p now rest seen
    else if seen.contains e.path then scanEntries p now rest seen
    else
      match e.modTime with
      | none => scanEntries p now rest seen
      | some mt =>
        let age := now - mt
        if belowMin p.minAge age then scanEntries p now rest seen
        else if aboveMax p.maxAge age then scanEntries p now rest seen
        else
          let step := scanEntries p now rest (e.path :: seen)
          ({ path := e.path, pipelineName := p.name, priority := p.priority,
             modTime := mt, direction := p.direction } :: step.1, step.2)

/-- The pattern loop of `scanPipeline` (scanner.go:55-95): walk each pattern
in order, abandoning the whole scan on a walk error (`return nil, err`,
scanner.go:92-94). -/
def scanPatterns (fs : FS) (p : PipelineConfig) (now : Int) :
    List String → List String → Except String (List CandidateFile × List String)
  | [], seen => .ok ([], seen)
  | pat :: pats, seen =>
    match globWalk fs pat with
    | .error e => .error e
    | .ok entries =>
      let step := scanEntries p now entries seen
      match scanPatterns fs p now pats step.2 with
      | .error e => .error e
      | .ok rest => .ok (step.1 ++ rest.1, rest.2)

/-- The pipeline loop of `ScanAll` (scanner.go:30-36): pipelines in
declaration order share the `seen` set; any `scanPipeline` error aborts
`ScanAll` (`return nil, err`). -/
def scanAllLoop (fs : FS) (now : Int) :
    List PipelineConfig → List String → Except String (List CandidateFile)
  | [], _ => .ok []
  | p :: ps, seen =>
    match scanPatterns fs p now p.paths seen with
    | .error e => .error e
    | .ok found =>
      match scanAllLoop fs now ps found.2 with
      | .error e => .error e
      | .ok rest => .ok (found.1 ++ rest)

/-- The comparison closure passed to `sort.SliceStable` (scanner.go:39-47):
lower priority number first; within a priority, by modification time,
ascending when the (first) candidate's direction is `"oldest"`, descending
otherwise. -/
def candLess (a b : CandidateFile) : Bool :=
  if a.priority ≠ b.priority then a.priority < b.priority
  else if a.direction == "oldest" then a.modTime < b.modTime
  else b.modTime < a.modTime

/-- The non-strict order induced by `candLess`; `sort.SliceStable less` is a
stable sort whose output is pairwise `¬ less b a`. -/
def candLE (a b : CandidateFile) : Bool := !(candLess b a)

/-- `ScanAll` (scanner.go:25-50): collect per-pipeline candidates, then
`sort.SliceStable` with `candLess`, modelled by the stable `List.mergeSort`
on `candLE`. -/
def scanAll (fs : FS) (ps : List PipelineConfig) (now : Int) :
    Except String (List CandidateFile) :=
  match scanAllLoop fs now ps [] with
  | .error e => .error e
  | .ok cs => .ok (cs.mergeSort candLE)

/-! ### Task-id codec (pool section of api.go bundle, `taskID` /
`PathFromTaskID`): Go's `base64.URLEncoding`, i.e. RFC 4648 URL-safe base64
with `=` padding.  Bytes are naturals below 256; characters are their code
points. -/

/-- The URL-safe base64 alphabet: sextet index to character code
(`A`-`Z`, `a`-`z`, `0`-`9`, `-`, `_`). -/
def sextetChar (s : Nat) : Nat :=
  if s < 26 then 65 + s
  else if s < 52 then 97 + (s - 26)
  else if s < 62 then 48 + (s - 52)
  else if s = 62 then 45
  else 95

/-- Inverse alphabet lookup; `none` for a character outside the alphabet
(including the padding character `=`, code 61). -/
def charSextet (c : Nat) : Option Nat :=
  if 65 ≤ c ∧ c ≤ 90 then some (c - 65)
  else if 97 ≤ c ∧ c ≤ 122 then some (26 + (c - 97))
  else if 48 ≤ c ∧ c ≤ 57 then some (52 + (c - 48))
  else if c = 45 then some 62
  else if c = 95 then some 63
  else none

/-- `base64.URLEncoding.EncodeToString`: three bytes become four alphabet
characters; a trailing group of one or two bytes is padded with `=` (61). -/
def b64encode : List Nat → List Nat
  | [] => []
  | [b0] => [sextetChar (b0 / 4), sextetChar (b0 % 4 * 16), 61, 61]
  | [b0, b1] => [sextetChar (b0 / 4), sextetChar (b0 % 4 * 16 + b1 / 16),
                 sextetChar (b1 % 16 * 4), 61]
  | b0 :: b1 :: b2 :: rest =>
    sextetChar (b0 / 4) :: sextetChar (b0 % 4 * 16 + b1 / 16) ::
    sextetChar (b1 % 16 * 4 + b2 / 64) :: sextetChar (b2 % 64) :: b64encode rest

/-- `base64.URLEncoding.DecodeString`: the input is consumed four characters
at a time; `=` padding is legal only at the very end (one or two characters);
any other length or a character outside the alphabet is an error (`none`).
Like Go's default (non-Strict) decoder, trailing padding bits are ignored
rather than required to be zero. -/
def b64decode : List Nat → Option (List Nat)
  | [] => some []
  | c0 :: c1 :: c2 :: c3 :: rest =>
    match charSextet c0, charSextet c1 with
    | some s0, some s1 =>
      if c2 = 61 then
        if c3 = 61 ∧ rest = [] then some [s0 * 4 + s1 / 16] else none
      else
        match charSextet c2 with
        | some s2 =>
          if c3 = 61 then
            if rest = [] then some [s0 * 4 + s1 / 16, s1 % 16 * 16 + s2 / 4]
            else none
          else
            match charSextet c3 with
            | some s3 =>
              match b64decode rest with
              | some bs =>
                some ((s0 * 4 + s1 / 16) :: (s1 % 16 * 16 + s2 / 4) ::
                      (s2 % 4 * 64 + s3) :: bs)
              | none => none
            | none => none
        | none => none
    | _, _ => none
  | _ => none

/-- `taskID(path)` (api.go bundle:771-774): URL-safe base64 of the path's
bytes.  Go strings are byte strings, so the path is a byte list. -/
def taskID (path : List Nat) : List Nat := b64encode path

/-- `PathFromTaskID(id)` (api.go bundle:777-783): decode back to the path's
bytes; `none` models the `invalid task id` error. -/
def pathFromTaskID (id : List Nat) : Option (List Nat) := b64decode id

/-- The bytes of a Lean string, for feeding `String` paths of the pool model
into the byte-level codec. -/
def strBytes (s : String) : List Nat := s.toUTF8.toList.map (fun b => b.toNat)

/-- `taskID` applied to a `String` path, as the pool uses it for worker ids. -/
def taskIDStr (path : String) : List Nat := taskID (strBytes path)

/-! ### Pool (pool section of the api.go bundle) -/

/-- An entry of the pool's `workers` map (`worker`, pool section). -/
structure PoolWorker where
  id : List Nat
  path : String
  pipeline : String
  startedAt : Nat
deriving Repr, DecidableEq

/-- The mutex-guarded pool fields that dispatch reads and writes. -/
structure PoolState where
  size : Int
  workers : List PoolWorker
deriving Repr, DecidableEq

/-- Oracles for the effectful steps of `startWorker`: `renderOk path` is the
success of the `GetPipelineExtra` / `MergeExtra` / `RenderTargetPath` /
`RenderCommand` sequence (all of which run before `MarkInFlight`), and
`spawnOk path` is the success of `cmd.Start()` (which runs after). -/
structure Env where
  renderOk : String → Bool
  spawnOk : String → Bool

/-- `startWorker` (api.go bundle:650-704).  Returns the store after the call
together with the worker added to the map (`none` on any failure).  The
decisive ordering from the source: `MarkInFlight` is executed before
`cmd.Start()`, and a spawn failure returns an error without undoing it. -/
def startWorker (env : Env) (pipelines : List PipelineConfig) (s : StoreState)
    (c : CandidateFile) (now : Nat) : StoreState × Option PoolWorker :=
  if pipelines.any (fun p => p.name == c.pipelineName) then
    if env.renderOk c.path then
      match markInFlight s c.path now with
      | .ok s1 =>
        if env.spawnOk c.path then
          (s1, some { id := taskIDStr c.path, path := c.path,
                      pipeline := c.pipelineName, startedAt := now })
        else (s1, none)
      | .error _ => (s, none)
    else (s, none)
  else (s, none)

/-- The candidate loop of `Dispatch` (api.go bundle:629-646): stop once
`started` reaches the free-slot count, skip candidates whose task id is
already active, and on a `startWorker` error merely log it (the error is
dropped) without counting the candidate as started. -/
def dispatchLoop (env : Env) (pipelines : List PipelineConfig) (slots : Int)
    (now : Nat) :
    List CandidateFile → StoreState → List PoolWorker → Int →
    StoreState × List PoolWorker
  | [], s, ws, _ => (s, ws)
  | c :: rest, s, ws, started =>
    if started ≥ slots then (s, ws)
    else if ws.any (fun w => w.id = taskIDStr c.path) then
      dispatchLoop env pipelines slots now rest s ws started
    else
      match startWorker env pipelines s c now with
      | (s1, some w) =>
        dispatchLoop env pipelines slots now rest s1 (ws ++ [w]) (started + 1)
      | (s1, none) => dispatchLoop env pipelines slots now rest s1 ws started

/-- `Dispatch` (api.go bundle:621-647).  Its Go signature is
`func (p *Pool) Dispatch(candidates []*scanner.CandidateFile)` — it returns
nothing, so no error ever reaches the caller; the result is just the new
store and pool states. -/
def dispatch (env : Env) (pipelines : List PipelineConfig) (s : StoreState)
    (pool : PoolState) (cands : List CandidateFile) (now : Nat) :
    StoreState × PoolState :=
  let slots := pool.size - pool.workers.length
  if slots ≤ 0 then (s, pool)
  else
    let res := dispatchLoop env pipelines slots now cands s pool.workers 0
    (res.1, { pool with workers := res.2 })

/-! ### Daemon (internal/daemon/daemon.go) -/

/-- The candidate filter of `scanAndDispatch` (daemon.go:72-90): a candidate
absent from the store is upserted and dispatched; a present row is
re-dispatched only from status `queued` or `errored`; `paused`, `in_flight`
and `completed` rows are skipped.  Returns the store after the loop and the
`fresh` list in order. -/
def tickFilter (now : Nat) :
    List CandidateFile → StoreState → StoreState × List CandidateFile
  | [], s => (s, [])
  | c :: rest, s =>
    match getByPath s c.path with
    | none =>
      match upsertQueued s c.path c.pipelineName now with
      | .ok s1 =>
        let step := tickFilter now rest s1
        (step.1, c :: step.2)
      | .error _ => tickFilter now rest s
    | some tf =>
      if tf.status == "queued" || tf.status == "errored" then
        let step := tickFilter now rest s
        (step.1, c :: step.2)
      else tickFilter now rest s

/-- `scanAndDispatch` (daemon.go:64-96): scan, filter, and hand any fresh
candidates to `Pool.Dispatch`; a scan error is logged and the tick does
nothing. -/
def scanAndDispatch (env : Env) (fs : FS) (pipelines : List PipelineConfig)
    (s : StoreState) (pool : PoolState) (scanNow : Int) (now : Nat) :
    StoreState × PoolState :=
  match scanAll fs pipelines scanNow with
  | .error _ => (s, pool)
  | .ok candidates =>
    let step := tickFilter now candidates s
    if step.2.isEmpty then (step.1, pool)
    else dispatch env pipelines step.1 pool step.2 now

/-- The set of input files present on disk, for observing deletions. -/
abbrev FileSys := List String

/-- The effect of a successful `removeFileWithRetry(path, 4, 250ms)`
(daemon.go:119-143): the file is gone.  The retry/permission handling is
real-time I/O outside the embedding; what the claims turn on is whether the
removal is attempted at all. -/
def removeFile (fsys : FileSys) (path : String) : FileSys :=
  fsys.filter (fun q => q ≠ path)

/-- The Daemon's completion callback `OnComplete` (daemon.go:100-115): on a
non-nil error, `MarkErrored`; on success, `MarkCompleted` and then — with no
condition on the pipeline — `removeFileWithRetry` on the input. -/
def onComplete (s : StoreState) (fsys : FileSys) (path _pipeline : String)
    (err : Option String) (now : Nat) : StoreState × FileSys :=
  match err with
  | some msg =>
    match markErrored s path msg now with
    | .ok s1 => (s1, fsys)
    | .error _ => (s, fsys)
  | none =>
    match markCompleted s path now with
    | .ok s1 => (s1, removeFile fsys path)
    | .error _ => (s, removeFile fsys path)

/-- The converter handler's wrapped exit callback (converter/handler.go:
109-130): on exit code 0, `MarkCompleted`, then delete the input only when
the handler config's `delete_on_success` is true; otherwise `MarkErrored`
with `"exit code N"`. -/
def converterOnExited (deleteOnSuccess : Bool) (s : StoreState)
    (fsys : FileSys) (inputPath : String) (exitCode : Int) (now : Nat) :
    StoreState × FileSys :=
  if exitCode = 0 then
    match markCompleted s inputPath now with
    | .ok s1 =>
      if deleteOnSuccess then (s1, removeFile fsys inputPath) else (s1, fsys)
    | .error _ =>
      if deleteOnSuccess then (s, removeFile fsys inputPath) else (s, fsys)
  else
    match markErrored s inputPath ("exit code " ++ toString exitCode) now with
    | .ok s1 => (s1, fsys)
    | .error _ => (s, fsys)

/-! ### Lemmas about the list model of SQL statements -/

theorem updateWhere_of_absent (s : StoreState) (p : String)
    (f : TargetFile → TargetFile) (h : ∀ r ∈ s, r.path ≠ p) :
    updateWhere s p f = s := by
  induction s with
  | nil => rfl
  | cons r rs ih =>
    have hr : r.path ≠ p := h r (List.mem_cons_self r rs)
    have hrs : ∀ x ∈ rs, x.path ≠ p := fun x hx => h x (List.mem_cons_of_mem r hx)
    simp only [updateWhere, List.map_cons]
    rw [if_neg (by simpa using hr)]
    have := ih hrs
    simpa [updateWhere] using this

theorem getByPath_updateWhere (s : StoreState) (p : String)
    (f : TargetFile → TargetFile) (hf : ∀ r, (f r).path = r.path) :
    getByPath (updateWhere s p f) p = (getByPath s p).map f := by
  induction s with
  | nil => rfl
  | cons r rs ih =>
    by_cases h : r.path = p
    · simp [getByPath, updateWhere, List.find?, h, hf]
    · simp only [getByPath, updateWhere, List.map_cons] at *
      rw [if_neg (by simpa using h)]
      rw [List.find?_cons_of_neg _ (by simpa using h),
          List.find?_cons_of_neg _ (by simpa using h)]
      exact ih

theorem any_path_of_getByPath (s : StoreState) (p : String) (r : TargetFile)
    (h : getByPath s p = some r) : s.any (fun x => x.path == p) = true := by
  have := List.find?_some h
  have hmem := List.mem_of_find?_eq_some h
  exact List.any_eq_true.mpr ⟨r, hmem, this⟩

/-! ### Claim C1 -/

/-- C1.  The claim says `UpsertQueued` is a no-op on rows whose status is
`queued`, `in_flight` or `completed`.  The code is not: the conflict clause
`status = CASE WHEN excluded.status = 'queued' THEN 'queued' ELSE status END`
compares the literal `'queued'` of the VALUES clause with itself, so the
condition is always true and every existing row — here one with status
`completed` and one with status `in_flight` — is forced back to `queued`
(without refreshing `queued_at`, whose CASE checks the old status).  The
repository's own developer notes state the intended no-op semantics, so this
is a bug in the code, witnessed by this evaluation. -/
theorem upsertQueued_overwrites_terminal_C1 :
    upsertQueued
        [{ path := "/in/a.ts", pipeline_name := "ts2mp4", status := "completed",
           error_count := 0, error_message := none, queued_at := some 1,
           started_at := some 2, completed_at := some 3,
           last_attempted_at := some 3 }] "/in/a.ts" "ts2mp4" 9 =
      .ok [{ path := "/in/a.ts", pipeline_name := "ts2mp4", status := "queued",
             error_count := 0, error_message := none, queued_at := some 1,
             started_at := some 2, completed_at := some 3,
             last_attempted_at := some 3 }] ∧
    upsertQueued
        [{ path := "/in/b.ts", pipeline_name := "ts2mp4", status := "in_flight",
           error_count := 1, error_message := none, queued_at := some 1,
           started_at := some 2, completed_at := none,
           last_attempted_at := some 2 }] "/in/b.ts" "ts2mp4" 9 =
      .ok [{ path := "/in/b.ts", pipeline_name := "ts2mp4", status := "queued",
             error_count := 1, error_message := none, queued_at := some 1,
             started_at := some 2, completed_at := none,
             last_attempted_at := some 2 }] := ⟨rfl, rfl⟩

/-! ### Claim C2 -/

/-- C2 (counterexample).  The claim says no Store operation moves a row out of
`completed`.  `MarkPaused` is an unconditional
`UPDATE target_files SET status = 'paused' WHERE path = ?`: on a row with
status `completed` it succeeds and the row leaves `completed`. -/
theorem markPaused_moves_completed_C2_cex :
    markPaused
        [{ path := "/f", pipeline_name := "pl", status := "completed",
           error_count := 2, error_message := none, queued_at := some 1,
           started_at := some 2, completed_at := some 3,
           last_attempted_at := some 3 }] "/f" =
      .ok [{ path := "/f", pipeline_name := "pl", status := "paused",
             error_count := 2, error_message := none, queued_at := some 1,
             started_at := some 2, completed_at := some 3,
             last_attempted_at := some 3 }] := rfl

/-- C2 (amended).  `completed` is not absorbing at the Store level: every one
of the five operations is an unconditional write and moves a `completed` row
to its own target status (`UpsertQueued` does so because of the always-true
conflict clause of C1).  What prevents re-dispatch of completed paths is the
Daemon's tick filter, not the Store. -/
theorem statusAfter_ok_update (s : StoreState) (p : String) (r : TargetFile)
    (f : TargetFile → TargetFile) (hf : ∀ x, (f x).path = x.path)
    (hfind : getByPath s p = some r) :
    statusAfter (.ok (updateWhere s p f)) p = some ((f r).status) := by
  simp [statusAfter, getByPath_updateWhere s p f hf, hfind]

theorem completed_not_absorbing_C2 (s : StoreState) (p msg pl : String)
    (n : Nat) (r : TargetFile) (hfind : getByPath s p = some r)
    (_hc : r.status = "completed") :
    statusAfter (markPaused s p) p = some "paused" ∧
    statusAfter (markInFlight s p n) p = some "in_flight" ∧
    statusAfter (markErrored s p msg n) p = some "errored" ∧
    statusAfter (markResumed s p) p = some "queued" ∧
    statusAfter (upsertQueued s p pl n) p = some "queued" := by
  refine ⟨?_, ?_, ?_, ?_, ?_⟩
  · exact statusAfter_ok_update s p r _ (fun _ => rfl) hfind
  · exact statusAfter_ok_update s p r _ (fun _ => rfl) hfind
  · exact statusAfter_ok_update s p r _ (fun _ => rfl) hfind
  · exact statusAfter_ok_update s p r _ (fun _ => rfl) hfind
  · have hany := any_path_of_getByPath s p r hfind
    simp only [upsertQueued, hany, if_true]
    exact statusAfter_ok_update s p r _ (fun _ => rfl) hfind

/-- C2 (witness for the amended theorem) at a concrete completed row. -/
theorem completed_not_absorbing_C2_witness :
    statusAfter (markPaused
        [{ path := "/f", pipeline_name := "pl", status := "completed",
           error_count := 2, error_message := none, queued_at := some 1,
           started_at := some 2, completed_at := some 3,
           last_attempted_at := some 3 }] "/f") "/f" = some "paused" ∧
    statusAfter (markInFlight
        [{ path := "/f", pipeline_name := "pl", status := "completed",
           error_count := 2, error_message := none, queued_at := some 1,
           started_at := some 2, completed_at := some 3,
           last_attempted_at := some 3 }] "/f" 9) "/f" = some "in_flight" ∧
    statusAfter (markErrored
        [{ path := "/f", pipeline_name := "pl", status := "completed",
           error_count := 2, error_message := none, queued_at := some 1,
           started_at := some 2, completed_at := some 3,
           last_attempted_at := some 3 }] "/f" "boom" 9) "/f" = some "errored" ∧
    statusAfter (markResumed
        [{ path := "/f", pipeline_name := "pl", status := "completed",
           error_count := 2, error_message := none, queued_at := some 1,
           started_at := some 2, completed_at := some 3,
           last_attempted_at := some 3 }] "/f") "/f" = some "queued" ∧
    statusAfter (upsertQueued
        [{ path := "/f", pipeline_name := "pl", status := "completed",
           error_count := 2, error_message := none, queued_at := some 1,
           started_at := some 2, completed_at := some 3,
           last_attempted_at := some 3 }] "/f" "pl" 9) "/f" = some "queued" :=
  completed_not_absorbing_C2 _ "/f" "boom" "pl" 9 _ rfl rfl

/-! ### Claim C10 -/

/-- C10.  For a path with no row, each of the five `Mark*` operations is an
`UPDATE ... WHERE path = ?` that matches zero rows: a successful statement
that creates nothing and changes nothing. -/
theorem marks_absent_path_noop_C10 (s : StoreState) (p msg : String) (n : Nat)
    (habs : getByPath s p = none) :
    markInFlight s p n = .ok s ∧ markCompleted s p n = .ok s ∧
    markErrored s p msg n = .ok s ∧ markPaused s p = .ok s ∧
    markResumed s p = .ok s := by
  have h : ∀ r ∈ s, r.path ≠ p := by
    intro r hr
    have := List.find?_eq_none.mp habs r hr
    simpa using this
  refine ⟨?_, ?_, ?_, ?_, ?_⟩ <;>
    simp [markInFlight, markCompleted, markErrored, markPaused, markResumed,
      updateWhere_of_absent s p _ h]

/-- C10 (witness): a store holding an unrelated row is untouched by the five
operations on a missing path. -/
theorem marks_absent_path_noop_C10_witness :
    markInFlight
        [{ path := "/present", pipeline_name := "pl", status := "queued",
           error_count := 0, error_message := none, queued_at := some 1,
           started_at := none, completed_at := none,
           last_attempted_at := none }] "/missing" 7 =
      .ok [{ path := "/present", pipeline_name := "pl", status := "queued",
             error_count := 0, error_message := none, queued_at := some 1,
             started_at := none, completed_at := none,
             last_attempted_at := none }] ∧
    markCompleted
        [{ path := "/present", pipeline_name := "pl", status := "queued",
           error_count := 0, error_message := none, queued_at := some 1,
           started_at := none, completed_at := none,
           last_attempted_at := none }] "/missing" 7 =
      .ok [{ path := "/present", pipeline_name := "pl", status := "queued",
             error_count := 0, error_message := none, queued_at := some 1,
             started_at := none, completed_at := none,
             last_attempted_at := none }] ∧
    markErrored
        [{ path := "/present", pipeline_name := "pl", status := "queued",
           error_count := 0, error_message := none, queued_at := some 1,
           started_at := none, completed_at := none,
           last_attempted_at := none }] "/missing" "m" 7 =
      .ok [{ path := "/present", pipeline_name := "pl", status := "queued",
             error_count := 0, error_message := none, queued_at := some 1,
             started_at := none, completed_at := none,
             last_attempted_at := none }] ∧
    markPaused
        [{ path := "/present", pipeline_name := "pl", status := "queued",
           error_count := 0, error_message := none, queued_at := some 1,
           started_at := none, completed_at := none,
           last_attempted_at := none }] "/missing" =
      .ok [{ path := "/present", pipeline_name := "pl", status := "queued",
             error_count := 0, error_message := none, queued_at := some 1,
             started_at := none, completed_at := none,
             last_attempted_at := none }] ∧
    markResumed
        [{ path := "/present", pipeline_name := "pl", status := "queued",
           error_count := 0, error_message := none, queued_at := some 1,
           started_at := none, completed_at := none,
           last_attempted_at := none }] "/missing" =
      .ok [{ path := "/present", pipeline_name := "pl", status := "queued",
             error_count := 0, error_message := none, queued_at := some 1,
             started_at := none, completed_at := none,
             last_attempted_at := none }] :=
  marks_absent_path_noop_C10 _ "/missing" "m" 7 rfl

/-! ### Claim C3 -/

/-- C3 (counterexample).  The claim says that at startup every `in_flight`
row is moved to `errored` with a recovery message and an incremented
`error_count` before the first tick.  No such sweep exists in the sources:
startup (`store.New` runs only `CREATE TABLE IF NOT EXISTS`; `main` performs
no other store write before `Daemon.Start`) leaves the row exactly as
persisted — still `in_flight`, `error_count` still 1 — and the first tick
then skips it. -/
theorem startup_keeps_inflight_C3_cex :
    storeNew
        [{ path := "/in/c.ts", pipeline_name := "pl", status := "in_flight",
           error_count := 1, error_message := none, queued_at := some 1,
           started_at := some 2, completed_at := none,
           last_attempted_at := some 2 }] =
      [{ path := "/in/c.ts", pipeline_name := "pl", status := "in_flight",
         error_count := 1, error_message := none, queued_at := some 1,
         started_at := some 2, completed_at := none,
         last_attempted_at := some 2 }] ∧
    tickFilter 9
        [{ path := "/in/c.ts", pipelineName := "pl", priority := 0,
           modTime := 0, direction := "oldest" }]
        (storeNew
          [{ path := "/in/c.ts", pipeline_name := "pl", status := "in_flight",
             error_count := 1, error_message := none, queued_at := some 1,
             started_at := some 2, completed_at := none,
             last_attempted_at := some 2 }]) =
      ([{ path := "/in/c.ts", pipeline_name := "pl", status := "in_flight",
          error_count := 1, error_message := none, queued_at := some 1,
          started_at := some 2, completed_at := none,
          last_attempted_at := some 2 }], []) := ⟨rfl, rfl⟩

/-- C3 (amended).  There is no crash-recovery sweep: process startup maps the
persisted `target_files` rows to themselves, so a row that was `in_flight`
when the previous process died is still `in_flight` before (and after) the
first tick, which skips it without dispatching or re-marking it. -/
theorem no_startup_sweep_C3 (s : StoreState) (r : TargetFile)
    (c : CandidateFile) (now : Nat) (hfind : getByPath s c.path = some r)
    (hst : r.status = "in_flight") :
    storeNew s = s ∧ tickFilter now [c] (storeNew s) = (s, []) := by
  refine ⟨rfl, ?_⟩
  simp [storeNew, tickFilter, hfind, hst]

/-- C3 (witness for the amended theorem). -/
theorem no_startup_sweep_C3_witness :
    storeNew
        [{ path := "/in/d.ts", pipeline_name := "pl", status := "in_flight",
           error_count := 3, error_message := none, queued_at := some 1,
           started_at := some 2, completed_at := none,
           last_attempted_at := some 2 }] =
      [{ path := "/in/d.ts", pipeline_name := "pl", status := "in_flight",
         error_count := 3, error_message := none, queued_at := some 1,
         started_at := some 2, completed_at := none,
         last_attempted_at := some 2 }] ∧
    tickFilter 4
        [{ path := "/in/d.ts", pipelineName := "pl", priority := 0,
           modTime := 0, direction := "oldest" }]
        (storeNew
          [{ path := "/in/d.ts", pipeline_name := "pl", status := "in_flight",
             error_count := 3, error_message := none, queued_at := some 1,
             started_at := some 2, completed_at := none,
             last_attempted_at := some 2 }]) =
      ([{ path := "/in/d.ts", pipeline_name := "pl", status := "in_flight",
          error_count := 3, error_message := none, queued_at := some 1,
          started_at := some 2, completed_at := none,
          last_attempted_at := some 2 }], []) :=
  no_startup_sweep_C3 _ _ _ 4 rfl rfl

/-! ### Claim C6 -/

/-- C6 (counterexample).  The claim says the Daemon's completion callback
deletes the input only when the pipeline's `delete_on_success` is true.  The
Daemon's `OnComplete` has no such condition (and `config.PipelineConfig` has
no such field): on success it always calls `removeFileWithRetry`, so the
input file is removed regardless of any pipeline setting. -/
theorem onComplete_always_deletes_C6_cex :
    (onComplete
        [{ path := "/in/a.ts", pipeline_name := "ts2mp4", status := "in_flight",
           error_count := 0, error_message := none, queued_at := some 1,
           started_at := some 2, completed_at := none,
           last_attempted_at := some 2 }]
        ["/in/a.ts"] "/in/a.ts" "ts2mp4" none 4).2 = [] := rfl

/-- C6 (amended).  On success (`err == nil`) the Daemon's `OnComplete` marks
the path completed and always attempts deletion of the input file; the
`delete_on_success` flag exists only in the overseer converter handler's
config, and only that handler's exit callback deletes conditionally on it. -/
theorem delete_on_success_behavior_C6 :
    (∀ (s : StoreState) (fsys : FileSys) (p pl : String) (now : Nat),
      (onComplete s fsys p pl none now).2 = removeFile fsys p ∧
      statusAfter (.ok (onComplete s fsys p pl none now).1) p =
        statusAfter (markCompleted s p now) p) ∧
    (∀ (flag : Bool) (s : StoreState) (fsys : FileSys) (p : String) (now : Nat),
      (converterOnExited flag s fsys p 0 now).2 =
        if flag then removeFile fsys p else fsys) := by
  constructor
  · intro s fsys p pl now
    exact ⟨rfl, rfl⟩
  · intro flag s fsys p now
    cases flag <;> rfl

/-! ### Claim C7 -/

/-- C7 (counterexample).  The claim says a pipeline with `min_age == max_age
== 0` — absent or explicitly zero — admits all files.  With both durations
explicitly present and zero (`*Duration` non-nil, value 0), a file of age 5
fails `age > p.MaxAge.Duration` and is rejected; the same file is admitted
once `max_age` is absent (`nil`). -/
theorem zero_max_age_rejects_C7_cex :
    scanAll
        (fun _ => GlobOutcome.ok
          [{ path := "/z/a.ts", isDir := false, modTime := some 0 }])
        [{ name := "z", priority := 0, paths := ["/z/**"],
           direction := "oldest", minAge := some 0, maxAge := some 0 }] 5 =
      .ok [] ∧
    scanAll
        (fun _ => GlobOutcome.ok
          [{ path := "/z/a.ts", isDir := false, modTime := some 0 }])
        [{ name := "z", priority := 0, paths := ["/z/**"],
           direction := "oldest", minAge := some 0, maxAge := none }] 5 =
      .ok [{ path := "/z/a.ts", pipelineName := "z", priority := 0,
             modTime := 0, direction := "oldest" }] := by
  constructor
  · simp [scanAll, scanAllLoop, scanPatterns, scanEntries, globWalk,
      belowMin, aboveMax]
  · simp [scanAll, scanAllLoop, scanPatterns, scanEntries, globWalk,
      belowMin, aboveMax]

/-- C7 (amended).  An absent (`nil`) `min_age`/`max_age` admits every file,
and an explicitly zero `min_age` still admits every file of non-negative age;
but an explicitly present zero `max_age` rejects every file of positive age
(the code treats a non-nil zero duration as the bound `age > 0`, not as
unbounded). -/
theorem age_filter_amended_C7 :
    (∀ age : Int, belowMin none age = false ∧ aboveMax none age = false) ∧
    (∀ age : Int, 0 ≤ age → belowMin (some 0) age = false) ∧
    (∀ age : Int, 0 < age → aboveMax (some 0) age = true) := by
  refine ⟨fun age => ⟨rfl, rfl⟩, fun age h => ?_, fun age h => ?_⟩
  · simp only [belowMin, decide_eq_false_iff_not]
    omega
  · simp only [aboveMax, decide_eq_true_eq]
    omega

/-- C7 (witness for the amended theorem). -/
theorem age_filter_amended_C7_witness :
    belowMin (some 0) 5 = false ∧ aboveMax (some 0) 5 = true :=
  ⟨age_filter_amended_C7.2.1 5 (by norm_num),
   age_filter_amended_C7.2.2 5 (by norm_num)⟩

/-! ### Claim C4 -/

/-- C4 (counterexample).  The claim says that on spawn failure the pool
reports the error to its caller and the Daemon marks the file `errored` so it
does not stay `in_flight`.  In the code `Dispatch` returns nothing and merely
logs the `startWorker` error, so after a failed spawn the row sits at
`in_flight` (written just before the spawn attempt) with no worker, and the
next tick's filter skips it instead of marking it `errored`. -/
theorem spawn_failure_sticks_C4_cex :
    dispatch ⟨fun _ => true, fun _ => false⟩
        [{ name := "p", priority := 0, paths := ["/x/**"],
           direction := "oldest", minAge := none, maxAge := none }]
        [{ path := "/x/b.ts", pipeline_name := "p", status := "queued",
           error_count := 0, error_message := none, queued_at := some 1,
           started_at := none, completed_at := none,
           last_attempted_at := none }]
        { size := 1, workers := [] }
        [{ path := "/x/b.ts", pipelineName := "p", priority := 0,
           modTime := 0, direction := "oldest" }] 3 =
      ([{ path := "/x/b.ts", pipeline_name := "p", status := "in_flight",
          error_count := 0, error_message := none, queued_at := some 1,
          started_at := some 3, completed_at := none,
          last_attempted_at := some 3 }], { size := 1, workers := [] }) ∧
    tickFilter 9
        [{ path := "/x/b.ts", pipelineName := "p", priority := 0,
           modTime := 0, direction := "oldest" }]
        [{ path := "/x/b.ts", pipeline_name := "p", status := "in_flight",
           error_count := 0, error_message := none, queued_at := some 1,
           started_at := some 3, completed_at := none,
           last_attempted_at := some 3 }] =
      ([{ path := "/x/b.ts", pipeline_name := "p", status := "in_flight",
          error_count := 0, error_message := none, queued_at := some 1,
          started_at := some 3, completed_at := none,
          last_attempted_at := some 3 }], []) := ⟨rfl, rfl⟩

/-- C4 (amended).  On spawn failure after a successful `MarkInFlight`, the
pool logs and discards the error inside `Dispatch` (whose Go type returns
nothing, so no error can reach the Daemon), adds no worker, and leaves the
row at `in_flight`; a subsequent tick skips the path without marking it
`errored`, so it stays stuck until some external intervention. -/
theorem spawn_failure_leaves_inflight_C4 (env : Env)
    (pipelines : List PipelineConfig) (s : StoreState) (pool : PoolState)
    (c : CandidateFile) (r : TargetFile) (now later : Nat)
    (hrow : getByPath s c.path = some r)
    (hpipe : pipelines.any (fun p => p.name == c.pipelineName) = true)
    (hrender : env.renderOk c.path = true)
    (hspawn : env.spawnOk c.path = false)
    (hslots : 0 < pool.size - (pool.workers.length : Int))
    (hnotrun : pool.workers.any (fun w => w.id = taskIDStr c.path) = false) :
    ∃ s1, dispatch env pipelines s pool [c] now = (s1, pool) ∧
      statusAfter (.ok s1) c.path = some "in_flight" ∧
      tickFilter later [c] s1 = (s1, []) := by
  have hs1 : dispatch env pipelines s pool [c] now =
      (updateWhere s c.path (fun x =>
        { x with status := "in_flight", started_at := some now,
                 last_attempted_at := some now }), pool) := by
    simp only [dispatch]
    rw [if_neg (by omega)]
    simp only [dispatchLoop]
    rw [if_neg (by omega)]
    simp only [hnotrun, Bool.false_eq_true, if_false, startWorker, hpipe,
      hrender, hspawn, markInFlight, if_true, dispatchLoop]
  refine ⟨_, hs1, ?_, ?_⟩
  · exact statusAfter_ok_update s c.path r _ (fun _ => rfl) hrow
  · have hfind1 : getByPath (updateWhere s c.path (fun x =>
        { x with status := "in_flight", started_at := some now,
                 last_attempted_at := some now })) c.path =
        some { r with status := "in_flight", started_at := some now,
                      last_attempted_at := some now } := by
      rw [getByPath_updateWhere s c.path (fun x =>
        { x with status := "in_flight", started_at := some now,
                 last_attempted_at := some now }) (fun _ => rfl), hrow]
      rfl
    simp [tickFilter, hfind1]

/-- C4 (witness for the amended theorem). -/
theorem spawn_failure_leaves_inflight_C4_witness :
    ∃ s1, dispatch ⟨fun _ => true, fun _ => false⟩
        [{ name := "p", priority := 0, paths := ["/x/**"],
           direction := "oldest", minAge := none, maxAge := none }]
        [{ path := "/x/b.ts", pipeline_name := "p", status := "queued",
           error_count := 0, error_message := none, queued_at := some 1,
           started_at := none, completed_at := none,
           last_attempted_at := none }]
        { size := 1, workers := [] }
        [{ path := "/x/b.ts", pipelineName := "p", priority := 0,
           modTime := 0, direction := "oldest" }] 3 =
      (s1, { size := 1, workers := [] }) ∧
      statusAfter (.ok s1) "/x/b.ts" = some "in_flight" ∧
      tickFilter 9
        [{ path := "/x/b.ts", pipelineName := "p", priority := 0,
           modTime := 0, direction := "oldest" }] s1 = (s1, []) :=
  spawn_failure_leaves_inflight_C4 _ _ _ _ _ _ 3 9 rfl rfl rfl rfl
    (by norm_num) rfl

/-! ### Claim C5 -/

theorem scanPatterns_ok (fs : FS) (p : PipelineConfig) (now : Int) :
    ∀ (pats : List String) (seen : List String),
      (∀ pat ∈ pats, fs pat ≠ GlobOutcome.badPattern) →
      ∃ res, scanPatterns fs p now pats seen = .ok res
  | [], _, _ => ⟨_, rfl⟩
  | pat :: pats, seen, h => by
    obtain ⟨es, hes⟩ : ∃ es, globWalk fs pat = .ok es := by
      unfold globWalk
      cases hfs : fs pat with
      | ok es => exact ⟨es, rfl⟩
      | ioError es => exact ⟨es, rfl⟩
      | badPattern => exact absurd hfs (h pat (by simp))
    obtain ⟨res2, hres2⟩ := scanPatterns_ok fs p now pats
      (scanEntries p now es seen).2 (fun q hq => h q (by simp [hq]))
    exact ⟨((scanEntries p now es seen).1 ++ res2.1, res2.2),
      by simp only [scanPatterns, hes, hres2]⟩

theorem scanAllLoop_ok (fs : FS) (now : Int) :
    ∀ (ps : List PipelineConfig) (seen : List String),
      (∀ p ∈ ps, ∀ pat ∈ p.paths, fs pat ≠ GlobOutcome.badPattern) →
      ∃ cs, scanAllLoop fs now ps seen = .ok cs
  | [], _, _ => ⟨_, rfl⟩
  | p :: ps, seen, h => by
    obtain ⟨res, hres⟩ := scanPatterns_ok fs p now p.paths seen
      (fun pat hpat => h p (by simp) pat hpat)
    obtain ⟨cs, hcs⟩ := scanAllLoop_ok fs now ps res.2
      (fun q hq pat hpat => h q (by simp [hq]) pat hpat)
    exact ⟨res.1 ++ cs, by simp only [scanAllLoop, hres, hcs]⟩

theorem scanPatterns_congr (fs fs2 : FS) (p : PipelineConfig) (now : Int)
    (hw : ∀ pat, globWalk fs pat = globWalk fs2 pat) :
    ∀ (pats : List String) (seen : List String),
      scanPatterns fs p now pats seen = scanPatterns fs2 p now pats seen
  | [], _ => rfl
  | pat :: pats, seen => by
    rw [scanPatterns, scanPatterns, hw pat]
    cases globWalk fs2 pat with
    | error e => rfl
    | ok entries =>
      simp only [scanPatterns_congr fs fs2 p now hw pats]

theorem scanAllLoop_congr (fs fs2 : FS) (now : Int)
    (hw : ∀ pat, globWalk fs pat = globWalk fs2 pat) :
    ∀ (ps : List PipelineConfig) (seen : List String),
      scanAllLoop fs now ps seen = scanAllLoop fs2 now ps seen
  | [], _ => rfl
  | p :: ps, seen => by
    rw [scanAllLoop, scanAllLoop, scanPatterns_congr fs fs2 p now hw]
    cases scanPatterns fs2 p now p.paths seen with
    | error e => rfl
    | ok res =>
      simp only [scanAllLoop_congr fs fs2 now hw ps]

theorem scanAll_congr (fs fs2 : FS) (ps : List PipelineConfig) (now : Int)
    (hw : ∀ pat, globWalk fs pat = globWalk fs2 pat) :
    scanAll fs ps now = scanAll fs2 ps now := by
  unfold scanAll
  rw [scanAllLoop_congr fs fs2 now hw ps]

/-- C5.  An I/O error while walking one root never aborts `ScanAll`: with
default options `doublestar.GlobWalk` swallows I/O errors (only a malformed
pattern makes `scanPipeline`'s `return nil, err` fire), so (i) as long as all
patterns are well-formed the scan succeeds, (ii) a root that is lost entirely
to an I/O error behaves exactly as an empty root — every other root
contributes its candidates as usual — and (iii) concretely, with pipeline A's
root unreadable and pipeline B's root holding one file, `ScanAll` still
returns B's candidate. -/
theorem scan_io_error_isolated_C5 (fs : FS) (ps : List PipelineConfig)
    (now : Int)
    (hok : ∀ p ∈ ps, ∀ pat ∈ p.paths, fs pat ≠ GlobOutcome.badPattern) :
    ((∃ cs, scanAll fs ps now = .ok cs) ∧
      (∀ pat, fs pat = GlobOutcome.ioError [] →
        scanAll fs ps now =
          scanAll (fun q => if q = pat then GlobOutcome.ok [] else fs q)
            ps now)) ∧
    scanAll
        (fun q => if q = "/a/**" then GlobOutcome.ioError []
          else GlobOutcome.ok
            [{ path := "/b/x.ts", isDir := false, modTime := some 4 }])
        [{ name := "A", priority := 0, paths := ["/a/**"],
           direction := "oldest", minAge := none, maxAge := none },
         { name := "B", priority := 1, paths := ["/b/**"],
           direction := "oldest", minAge := none, maxAge := none }] 10 =
      .ok [{ path := "/b/x.ts", pipelineName := "B", priority := 1,
             modTime := 4, direction := "oldest" }] := by
  refine ⟨⟨?_, ?_⟩, ?_⟩
  · obtain ⟨cs, hcs⟩ := scanAllLoop_ok fs now ps [] hok
    exact ⟨cs.mergeSort candLE, by simp only [scanAll, hcs]⟩
  · intro pat hio
    apply scanAll_congr
    intro q
    by_cases hq : q = pat
    · subst hq
      simp [globWalk, hio]
    · simp [globWalk, hq]
  · simp [scanAll, scanAllLoop, scanPatterns, scanEntries, globWalk,
      belowMin, aboveMax]

/-- C5 (witness): the general isolation statement applied to the concrete
scenario of the example — replacing the unreadable root by an empty one does
not change the scan's result. -/
theorem scan_io_error_isolated_C5_witness :
    scanAll
        (fun q => if q = "/a/**" then GlobOutcome.ioError []
          else GlobOutcome.ok
            [{ path := "/b/x.ts", isDir := false, modTime := some 4 }])
        [{ name := "A", priority := 0, paths := ["/a/**"],
           direction := "oldest", minAge := none, maxAge := none },
         { name := "B", priority := 1, paths := ["/b/**"],
           direction := "oldest", minAge := none, maxAge := none }] 10 =
      scanAll
        (fun q => if q = "/a/**" then GlobOutcome.ok []
          else if q = "/a/**" then GlobOutcome.ioError []
          else GlobOutcome.ok
            [{ path := "/b/x.ts", isDir := false, modTime := some 4 }])
        [{ name := "A", priority := 0, paths := ["/a/**"],
           direction := "oldest", minAge := none, maxAge := none },
         { name := "B", priority := 1, paths := ["/b/**"],
           direction := "oldest", minAge := none, maxAge := none }] 10 :=
  (scan_io_error_isolated_C5 _ _ 10 (by decide)).1.2 "/a/**" (by decide)

/-! ### Claim C9 -/

theorem charSextet_sextetChar :
    ∀ s : Nat, s < 64 → charSextet (sextetChar s) = some s := by decide

theorem sextetChar_ne_pad : ∀ s : Nat, s < 64 → sextetChar s ≠ 61 := by decide

theorem b64decode_b64encode :
    ∀ (l : List Nat), (∀ b ∈ l, b < 256) → b64decode (b64encode l) = some l
  | [], _ => rfl
  | [b0], h => by
    have hb0 : b0 < 256 := h b0 (by simp)
    have e0 := charSextet_sextetChar (b0 / 4) (by omega)
    have e1 := charSextet_sextetChar (b0 % 4 * 16) (by omega)
    simp only [b64encode, b64decode, e0, e1, and_self, if_true]
    simp only [Option.some.injEq, List.cons.injEq, and_true]
    omega
  | [b0, b1], h => by
    have hb0 : b0 < 256 := h b0 (by simp)
    have hb1 : b1 < 256 := h b1 (by simp)
    have e0 := charSextet_sextetChar (b0 / 4) (by omega)
    have e1 := charSextet_sextetChar (b0 % 4 * 16 + b1 / 16) (by omega)
    have e2 := charSextet_sextetChar (b1 % 16 * 4) (by omega)
    have n2 := sextetChar_ne_pad (b1 % 16 * 4) (by omega)
    simp only [b64encode, b64decode, e0, e1, e2, n2, if_false, and_self,
      if_true]
    simp only [Option.some.injEq, List.cons.injEq, and_true]
    constructor
    · omega
    · omega
  | b0 :: b1 :: b2 :: rest, h => by
    have hb0 : b0 < 256 := h b0 (by simp)
    have hb1 : b1 < 256 := h b1 (by simp)
    have hb2 : b2 < 256 := h b2 (by simp)
    have e0 := charSextet_sextetChar (b0 / 4) (by omega)
    have e1 := charSextet_sextetChar (b0 % 4 * 16 + b1 / 16) (by omega)
    have e2 := charSextet_sextetChar (b1 % 16 * 4 + b2 / 64) (by omega)
    have e3 := charSextet_sextetChar (b2 % 64) (by omega)
    have n2 := sextetChar_ne_pad (b1 % 16 * 4 + b2 / 64) (by omega)
    have n3 := sextetChar_ne_pad (b2 % 64) (by omega)
    have ih := b64decode_b64encode rest
      (fun b hb => h b (by simp [hb]))
    simp only [b64encode, b64decode, e0, e1, e2, e3, n2, n3, if_false, ih]
    simp only [Option.some.injEq, List.cons.injEq, eq_self_iff_true, and_true]
    refine ⟨by omega, by omega, by omega⟩

/-- C9.  The task-id codec round-trips: for every path (an arbitrary byte
string, bytes being naturals below 256), decoding the URL-safe base64 task id
recovers the original path: `PathFromTaskID(taskID(path)) = path`. -/
theorem taskID_roundtrip_C9 (path : List Nat) (h : ∀ b ∈ path, b < 256) :
    pathFromTaskID (taskID path) = some path :=
  b64decode_b64encode path h

/-- C9 (witness): the round trip at the UTF-8 bytes of `"/in/a.ts"`. -/
theorem taskID_roundtrip_C9_witness :
    pathFromTaskID (taskID [47, 105, 110, 47, 97, 46, 116, 115]) =
      some [47, 105, 110, 47, 97, 46, 116, 115] :=
  taskID_roundtrip_C9 _ (by decide)

/-! ### Claim C8

`sort.SliceStable(candidates, less)` posts two facts: the output is a
permutation of the input, and for `i < j` it is not the case that
`less(out[j], out[i])` — i.e. the output is pairwise `candLE`.  `candLess`
reads the direction of its first argument, so it is a strict weak order only
when candidates sharing a priority share a direction; the lemmas below prove
totality and transitivity of `candLE` under that hypothesis, restricted to
the elements at hand (the core library's `sorted_mergeSort` needs them for
the whole type, which mixed-direction values would break). -/

theorem pairwise_merge_of {α : Type} (le : α → α → Bool) :
    ∀ (l₁ l₂ : List α),
      (∀ a, (a ∈ l₁ ∨ a ∈ l₂) → ∀ b, (b ∈ l₁ ∨ b ∈ l₂) →
        ∀ c, (c ∈ l₁ ∨ c ∈ l₂) →
        le a b = true → le b c = true → le a c = true) →
      (∀ a ∈ l₁, ∀ b ∈ l₂, le a b = true ∨ le b a = true) →
      List.Pairwise (fun a b => le a b = true) l₁ →
      List.Pairwise (fun a b => le a b = true) l₂ →
      List.Pairwise (fun a b => le a b = true) (List.merge l₁ l₂ le)
  | [], l₂, _, _, _, h₂ => by simpa using h₂
  | x :: xs, [], _, _, h₁, _ => by simpa using h₁
  | x :: xs, y :: ys, htrans, htotal, h₁, h₂ => by
    rw [List.cons_merge_cons]
    split
    case isTrue hxy =>
      apply List.Pairwise.cons
      · intro z hz
        rw [List.mem_merge] at hz
        rcases hz with hz | hz
        · exact List.rel_of_pairwise_cons h₁ hz
        · rcases List.mem_cons.mp hz with rfl | hz
          · exact hxy
          · exact htrans x (Or.inl (by simp)) y (Or.inr (by simp))
              z (Or.inr (by simp [hz])) hxy (List.rel_of_pairwise_cons h₂ hz)
      · exact pairwise_merge_of le xs (y :: ys)
          (fun a ha b hb c hc => htrans
            a (ha.imp (List.mem_cons_of_mem x) id)
            b (hb.imp (List.mem_cons_of_mem x) id)
            c (hc.imp (List.mem_cons_of_mem x) id))
          (fun a ha b hb => htotal a (List.mem_cons_of_mem x ha) b hb)
          (List.pairwise_cons.mp h₁).2 h₂
    case isFalse hxy =>
      have hyx : le y x = true := by
        rcases htotal x (by simp) y (by simp) with h | h
        · exact absurd h (by simpa using hxy)
        · exact h
      apply List.Pairwise.cons
      · intro z hz
        rw [List.mem_merge] at hz
        rcases hz with hz | hz
        · rcases List.mem_cons.mp hz with rfl | hz
          · exact hyx
          · exact htrans y (Or.inr (by simp)) x (Or.inl (by simp))
              z (Or.inl (by simp [hz])) hyx (List.rel_of_pairwise_cons h₁ hz)
        · exact List.rel_of_pairwise_cons h₂ hz
      · exact pairwise_merge_of le (x :: xs) ys
          (fun a ha b hb c hc => htrans
            a (ha.imp id (List.mem_cons_of_mem y))
            b (hb.imp id (List.mem_cons_of_mem y))
            c (hc.imp id (List.mem_cons_of_mem y)))
          (fun a ha b hb => htotal a ha b (List.mem_cons_of_mem y hb))
          h₁ (List.pairwise_cons.mp h₂).2
termination_by l₁ l₂ => l₁.length + l₂.length

theorem pairwise_mergeSort_of {α : Type} (le : α → α → Bool) :
    ∀ (l : List α),
      (∀ a ∈ l, ∀ b ∈ l, ∀ c ∈ l,
        le a b = true → le b c = true → le a c = true) →
      (∀ a ∈ l, ∀ b ∈ l, le a b = true ∨ le b a = true) →
      List.Pairwise (fun a b => le a b = true) (List.mergeSort l le)
  | [], _, _ => by simp
  | [a], _, _ => by simp
  | a :: b :: xs, htrans, htotal => by
    have hlen1 : (List.splitInTwo ⟨a :: b :: xs, rfl⟩).1.1.length <
        xs.length + 1 + 1 := by
      simp [List.splitInTwo_fst]; omega
    have hlen2 : (List.splitInTwo ⟨a :: b :: xs, rfl⟩).2.1.length <
        xs.length + 1 + 1 := by
      simp [List.splitInTwo_snd]; omega
    have hsub : (List.splitInTwo
          (⟨a :: b :: xs, rfl⟩ : { l : List α // l.length = xs.length + 1 + 1 })).1.1 ++
        (List.splitInTwo
          (⟨a :: b :: xs, rfl⟩ : { l : List α // l.length = xs.length + 1 + 1 })).2.1 =
        a :: b :: xs :=
      List.splitInTwo_fst_append_splitInTwo_snd
        (⟨a :: b :: xs, rfl⟩ : { l : List α // l.length = xs.length + 1 + 1 })
    have hmem1 : ∀ x ∈ (List.splitInTwo ⟨a :: b :: xs, rfl⟩).1.1,
        x ∈ a :: b :: xs := by
      intro x hx
      rw [← hsub]
      exact List.mem_append.mpr (Or.inl hx)
    have hmem2 : ∀ x ∈ (List.splitInTwo ⟨a :: b :: xs, rfl⟩).2.1,
        x ∈ a :: b :: xs := by
      intro x hx
      rw [← hsub]
      exact List.mem_append.mpr (Or.inr hx)
    rw [List.mergeSort]
    apply pairwise_merge_of
    · intro p hp q hq r hr
      apply htrans
      · rcases hp with hp | hp
        · exact hmem1 p (List.mem_mergeSort.mp hp)
        · exact hmem2 p (List.mem_mergeSort.mp hp)
      · rcases hq with hq | hq
        · exact hmem1 q (List.mem_mergeSort.mp hq)
        · exact hmem2 q (List.mem_mergeSort.mp hq)
      · rcases hr with hr | hr
        · exact hmem1 r (List.mem_mergeSort.mp hr)
        · exact hmem2 r (List.mem_mergeSort.mp hr)
    · intro p hp q hq
      exact htotal p (hmem1 p (List.mem_mergeSort.mp hp))
        q (hmem2 q (List.mem_mergeSort.mp hq))
    · exact pairwise_mergeSort_of le _
        (fun p hp q hq r hr => htrans p (hmem1 p hp) q (hmem1 q hq)
          r (hmem1 r hr))
        (fun p hp q hq => htotal p (hmem1 p hp) q (hmem1 q hq))
    · exact pairwise_mergeSort_of le _
        (fun p hp q hq r hr => htrans p (hmem2 p hp) q (hmem2 q hq)
          r (hmem2 r hr))
        (fun p hp q hq => htotal p (hmem2 p hp) q (hmem2 q hq))
termination_by l => l.length

theorem candLess_eq_true_iff (x y : CandidateFile) :
    candLess x y = true ↔
      (x.priority ≠ y.priority ∧ x.priority < y.priority) ∨
      (x.priority = y.priority ∧ x.direction = "oldest" ∧
        x.modTime < y.modTime) ∨
      (x.priority = y.priority ∧ x.direction ≠ "oldest" ∧
        y.modTime < x.modTime) := by
  by_cases hp : x.priority = y.priority
  · by_cases hd : x.direction = "oldest"
    · simp [candLess, hp, hd]
    · simp [candLess, hp, hd]
  · simp [candLess, hp]

theorem candLess_false_trans (a b c : CandidateFile)
    (hab : a.priority = b.priority → a.direction = b.direction)
    (hbc : b.priority = c.priority → b.direction = c.direction)
    (h1 : candLess b a = false) (h2 : candLess c b = false) :
    candLess c a = false := by
  rw [Bool.eq_false_iff, ne_eq, candLess_eq_true_iff] at h1 h2 ⊢
  push_neg at h1 h2
  obtain ⟨h1a, h1b, h1c⟩ := h1
  obtain ⟨h2a, h2b, h2c⟩ := h2
  push_neg
  refine ⟨?_, ?_, ?_⟩
  · -- c.priority < a.priority is impossible
    intro hne
    by_cases hba : b.priority = a.priority
    · by_cases hcb : c.priority = b.priority
      · omega
      · have := h2a hcb
        omega
    · have hba2 := h1a hba
      by_cases hcb : c.priority = b.priority
      · omega
      · have := h2a hcb
        omega
  · -- equal priority, direction oldest: c.modTime < a.modTime impossible
    intro heq hdir
    by_cases hba : b.priority = a.priority
    · have hdab : a.direction = b.direction := hab hba.symm
      have hdbc : b.direction = c.direction := hbc (by omega)
      have hno1 : a.modTime ≤ b.modTime := h1b hba (by rw [hdbc, hdir])
      have hno2 : b.modTime ≤ c.modTime := h2b (by omega) hdir
      omega
    · have hba2 := h1a hba
      by_cases hcb : c.priority = b.priority
      · omega
      · have := h2a hcb
        omega
  · -- equal priority, direction not oldest: a.modTime < c.modTime impossible
    intro heq hdir
    by_cases hba : b.priority = a.priority
    · have hdab : a.direction = b.direction := hab hba.symm
      have hdbc : b.direction = c.direction := hbc (by omega)
      have hno1 : b.modTime ≤ a.modTime := h1c hba (by rw [hdbc]; exact hdir)
      have hno2 : c.modTime ≤ b.modTime := h2c (by omega) hdir
      omega
    · have hba2 := h1a hba
      by_cases hcb : c.priority = b.priority
      · omega
      · have := h2a hcb
        omega

theorem candLE_total (a b : CandidateFile)
    (h : a.priority = b.priority → a.direction = b.direction) :
    candLE a b = true ∨ candLE b a = true := by
  cases hba : candLess b a with
  | false => exact Or.inl (by simp [candLE, hba])
  | true =>
    refine Or.inr ?_
    have hfalse : candLess a b = false := by
      rw [Bool.eq_false_iff, ne_eq, candLess_eq_true_iff]
      rw [candLess_eq_true_iff] at hba
      push_neg
      refine ⟨?_, ?_, ?_⟩
      · intro hne
        rcases hba with ⟨_, hp⟩ | ⟨hp, _, _⟩ | ⟨hp, _, _⟩ <;> omega
      · intro heq hdir
        rcases hba with ⟨hp, _⟩ | ⟨hp, hbd, hmt⟩ | ⟨hp, hbd, hmt⟩
        · omega
        · omega
        · exact absurd (by rw [← h heq, hdir]) hbd
      · intro heq hdir
        rcases hba with ⟨hp, _⟩ | ⟨hp, hbd, hmt⟩ | ⟨hp, hbd, hmt⟩
        · omega
        · exact absurd (h heq ▸ hbd) hdir
        · omega
    simp [candLE, hfalse]

theorem candLE_trans (a b c : CandidateFile)
    (hab : a.priority = b.priority → a.direction = b.direction)
    (hbc : b.priority = c.priority → b.direction = c.direction)
    (h1 : candLE a b = true) (h2 : candLE b c = true) :
    candLE a c = true := by
  simp only [candLE, Bool.not_eq_true'] at h1 h2 ⊢
  exact candLess_false_trans a b c hab hbc h1 h2

unseal List.merge List.mergeSort in
/-- C8.  (i) In general: whenever the walk phase produces the candidate list
`cs` (pipelines sharing a priority sharing a direction, as the comparator
requires to be an order at all), `ScanAll` returns the stable merge sort of
`cs` under `candLE` — a permutation of `cs` that is pairwise sorted by
ascending priority and, within a priority, by modification time in the
direction's sense.  (ii) In particular, for pipelines A(priority 0, oldest)
with files a1 (mtime 1) older than a2 (mtime 5), and B(priority 1) with b1,
the returned order is [a1, a2, b1]. -/
theorem scanAll_sorted_C8 :
    (∀ (fs : FS) (ps : List PipelineConfig) (now : Int)
       (cs : List CandidateFile),
       scanAllLoop fs now ps [] = .ok cs →
       (∀ a ∈ cs, ∀ b ∈ cs, a.priority = b.priority →
         a.direction = b.direction) →
       scanAll fs ps now = .ok (cs.mergeSort candLE) ∧
       (cs.mergeSort candLE).Perm cs ∧
       List.Pairwise (fun a b => candLE a b = true) (cs.mergeSort candLE)) ∧
    scanAll
        (fun q => if q = "/a/**" then GlobOutcome.ok
            [{ path := "/a/a1.ts", isDir := false, modTime := some 1 },
             { path := "/a/a2.ts", isDir := false, modTime := some 5 }]
          else GlobOutcome.ok
            [{ path := "/b/b1.ts", isDir := false, modTime := some 3 }])
        [{ name := "A", priority := 0, paths := ["/a/**"],
           direction := "oldest", minAge := none, maxAge := none },
         { name := "B", priority := 1, paths := ["/b/**"],
           direction := "oldest", minAge := none, maxAge := none }] 10 =
      .ok [{ path := "/a/a1.ts", pipelineName := "A", priority := 0,
             modTime := 1, direction := "oldest" },
           { path := "/a/a2.ts", pipelineName := "A", priority := 0,
             modTime := 5, direction := "oldest" },
           { path := "/b/b1.ts", pipelineName := "B", priority := 1,
             modTime := 3, direction := "oldest" }] := by
  constructor
  · intro fs ps now cs hscan huni
    refine ⟨by simp only [scanAll, hscan], List.mergeSort_perm cs candLE, ?_⟩
    apply pairwise_mergeSort_of
    · intro p hp q hq r hr hpq hqr
      exact candLE_trans p q r (huni p hp q hq) (huni q hq r hr) hpq hqr
    · intro p hp q hq
      exact candLE_total p q (huni p hp q hq)
  · rfl

/-- C8 (witness): the general statement applied at the concrete example
scenario. -/
theorem scanAll_sorted_C8_witness :
    scanAll
        (fun q => if q = "/a/**" then GlobOutcome.ok
            [{ path := "/a/a1.ts", isDir := false, modTime := some 1 },
             { path := "/a/a2.ts", isDir := false, modTime := some 5 }]
          else GlobOutcome.ok
            [{ path := "/b/b1.ts", isDir := false, modTime := some 3 }])
        [{ name := "A", priority := 0, paths := ["/a/**"],
           direction := "oldest", minAge := none, maxAge := none },
         { name := "B", priority := 1, paths := ["/b/**"],
           direction := "oldest", minAge := none, maxAge := none }] 10 =
      .ok (([{ path := "/a/a1.ts", pipelineName := "A", priority := 0,
               modTime := 1, direction := "oldest" },
             { path := "/a/a2.ts", pipelineName := "A", priority := 0,
               modTime := 5, direction := "oldest" },
             { path := "/b/b1.ts", pipelineName := "B", priority := 1,
               modTime := 3, direction := "oldest" }] :
          List CandidateFile).mergeSort candLE) ∧
    (([{ path := "/a/a1.ts", pipelineName := "A", priority := 0,
         modTime := 1, direction := "oldest" },
       { path := "/a/a2.ts", pipelineName := "A", priority := 0,
         modTime := 5, direction := "oldest" },
       { path := "/b/b1.ts", pipelineName := "B", priority := 1,
         modTime := 3, direction := "oldest" }] :
        List CandidateFile).mergeSort candLE).Perm
      [{ path := "/a/a1.ts", pipelineName := "A", priority := 0,
         modTime := 1, direction := "oldest" },
       { path := "/a/a2.ts", pipelineName := "A", priority := 0,
         modTime := 5, direction := "oldest" },
       { path := "/b/b1.ts", pipelineName := "B", priority := 1,
         modTime := 3, direction := "oldest" }] ∧
    List.Pairwise (fun a b => candLE a b = true)
      (([{ path := "/a/a1.ts", pipelineName := "A", priority := 0,
           modTime := 1, direction := "oldest" },
         { path := "/a/a2.ts", pipelineName := "A", priority := 0,
           modTime := 5, direction := "oldest" },
         { path := "/b/b1.ts", pipelineName := "B", priority := 1,
           modTime := 3, direction := "oldest" }] :
          List CandidateFile).mergeSort candLE) :=
  scanAll_sorted_C8.1 _ _ 10 _ rfl (by decide)

end StickyRefinery
